import Mathlib

/-!
Verification of the spatial extension for a columnar SQL engine
(`datafusion-spatial`): a shallow embedding, in Lean, of the coordinate
extent primitive (`src/compute.rs`), the `ST_Extent` accumulator
(`src/udafs/extent.rs`), the `ST_Envelope` kernel (`src/udfs/envelope.rs`),
the WKT writer (`src/wkt/scalar.rs`, `src/wkt/array.rs`), the scalar
kernels' argument handling (`src/udfs/as_text.rs`, `src/udfs/envelope.rs`,
`src/udfs/geometry_type.rs`, `src/udfs/helpers.rs`) and the spatial
analyzer rule (`src/rules.rs`), together with theorems checking the
specification's statements against these definitions.

Floating point numbers are modelled order-theoretically: the kernels under
study only ever compare, min/max-fold and NaN-test their doubles, never
add or multiply them, so a value is either NaN, an infinity, or a finite
rational; `f64::MAX` and `f64::MIN` are the exact extreme finite doubles
`(2^53-1) * 2^971` and its negation.
-/

set_option maxRecDepth 8000

/-- A double as the spatial kernels observe one: NaN, an infinity, or a
finite value (modelled as the exact rational the bit pattern denotes). -/
inductive F64 where
  | nan
  | negInf
  | posInf
  | fin (q : ℚ)
deriving DecidableEq

/-- The largest finite double, `f64::MAX = (2^53 - 1) * 2^971 = 2^1024 - 2^971`. -/
def f64MAXq : ℚ := ((Nat.pow 2 1024 - Nat.pow 2 971 : ℕ) : ℚ)

/-- `f64::MAX` as an `F64`. -/
def f64MAX : F64 := .fin f64MAXq

/-- `f64::MIN = -f64::MAX` as an `F64`. -/
def f64MIN : F64 := .fin (-f64MAXq)

/-- Rust's `f64::is_nan`. -/
def F64.isNan : F64 → Bool
  | .nan => true
  | _ => false

/-- IEEE-754 `<` as Rust's `<` on `f64` behaves: false whenever either
side is NaN, otherwise the numeric order with the infinities at the ends. -/
def F64.lt : F64 → F64 → Bool
  | .nan, _ => false
  | _, .nan => false
  | .negInf, .negInf => false
  | .negInf, _ => true
  | _, .negInf => false
  | .posInf, _ => false
  | _, .posInf => true
  | .fin a, .fin b => a < b

/-- IEEE-754 `<=` as Rust's `<=` on `f64` behaves. -/
def F64.le : F64 → F64 → Bool
  | .nan, _ => false
  | _, .nan => false
  | .negInf, _ => true
  | _, .negInf => false
  | _, .posInf => true
  | .posInf, _ => false
  | .fin a, .fin b => a ≤ b

/-- Rust's `f64::min`: ignores a NaN argument, otherwise the smaller value. -/
def F64.min (a b : F64) : F64 :=
  if a.isNan then b else if b.isNan then a else if a.lt b then a else b

/-- Rust's `f64::max`: ignores a NaN argument, otherwise the larger value. -/
def F64.max (a b : F64) : F64 :=
  if a.isNan then b else if b.isNan then a else if a.lt b then b else a

/-- The total order `arrow`'s aggregate `min`/`max` kernels use on doubles:
the numeric order with NaN greater than every other value. -/
def F64.totalLt : F64 → F64 → Bool
  | .nan, _ => false
  | _, .nan => true
  | .negInf, .negInf => false
  | .negInf, _ => true
  | _, .negInf => false
  | .posInf, _ => false
  | .fin _, .posInf => true
  | .fin a, .fin b => a < b

/-- `arrow::compute::min` over a null-free `Float64` column: `None` on an
empty column, otherwise the least element under `F64.totalLt`. -/
def arrowMin : List F64 → Option F64
  | [] => none
  | x :: xs => some (xs.foldl (fun acc y => if y.totalLt acc then y else acc) x)

/-- `arrow::compute::max` over a null-free `Float64` column. -/
def arrowMax : List F64 → Option F64
  | [] => none
  | x :: xs => some (xs.foldl (fun acc y => if acc.totalLt y then y else acc) x)

/-- The running state of `ST_Extent` (`ExtentAccumulator` in
`src/udafs/extent.rs`). -/
structure ExtentAccumulator where
  xmin : F64
  ymin : F64
  xmax : F64
  ymax : F64
deriving DecidableEq

/-- `ExtentAccumulator::new`: the fresh accumulator holds
`(f64::MAX, f64::MAX, f64::MIN, f64::MIN)`. -/
def ExtentAccumulator.new : ExtentAccumulator :=
  { xmin := f64MAX, ymin := f64MAX, xmax := f64MIN, ymax := f64MIN }

/-- `ExtentAccumulator::state`: the serialized partial state, in the order
`[xmin, xmax, ymin, ymax]`. -/
def ExtentAccumulator.stateVec (a : ExtentAccumulator) : List F64 :=
  [a.xmin, a.xmax, a.ymin, a.ymax]

/-- `ExtentAccumulator::merge_batch` as `src/udafs/extent.rs` lines 210-224
write it: `states` are the four serialized partial-state columns; the code
reduces `states[i]` with `arrow`'s `min` and folds the result into the
receiver with `f64::min` for all four fields, pairing `states[1]` with
`ymin` and `states[2]` with `xmax`. `none` models the panic of `unwrap`
on an empty column or of indexing past the end of `states`. -/
def ExtentAccumulator.mergeBatch (a : ExtentAccumulator) (states : List (List F64)) :
    Option ExtentAccumulator := do
  let s0 ← states[0]?
  let s1 ← states[1]?
  let s2 ← states[2]?
  let s3 ← states[3]?
  let m0 ← arrowMin s0
  let m1 ← arrowMin s1
  let m2 ← arrowMin s2
  let m3 ← arrowMin s3
  pure { xmin := a.xmin.min m0, ymin := a.ymin.min m1,
         xmax := a.xmax.min m2, ymax := a.ymax.min m3 }

/-- Modelled from the spec: the merge semantics section of §4.5 — the
serialized state ordering is `[xmin, xmax, ymin, ymax]`, each state column
is reduced to a single scalar, and the result is combined into the receiver
under the operator matching the column: elementwise min for the lower
bounds `xmin` (column 0) and `ymin` (column 2), elementwise max for the
upper bounds `xmax` (column 1) and `ymax` (column 3). Stated for
comparison with `ExtentAccumulator.mergeBatch` above, which embeds the
code. -/
def ExtentAccumulator.mergeBatchSpec (a : ExtentAccumulator) (states : List (List F64)) :
    Option ExtentAccumulator := do
  let s0 ← states[0]?
  let s1 ← states[1]?
  let s2 ← states[2]?
  let s3 ← states[3]?
  let m0 ← arrowMin s0
  let m1 ← arrowMax s1
  let m2 ← arrowMin s2
  let m3 ← arrowMax s3
  pure { xmin := a.xmin.min m0, ymin := a.ymin.min m2,
         xmax := a.xmax.max m1, ymax := a.ymax.max m3 }

/-- A coordinate buffer as `geoarrow` stores one: either a single
interleaved vector with stride = dimension, or one parallel vector per
axis (only axes 0 and 1 are ever read by the kernels under study). -/
inductive CoordBuf where
  | interleaved (d : Nat) (flat : List F64)
  | separated (xs ys : List F64)
deriving DecidableEq

/-- `CoordBuffer::len`: number of coordinates. -/
def CoordBuf.len : CoordBuf → Nat
  | .interleaved d flat => flat.length / d
  | .separated xs _ => xs.length

/-- `CoordBuffer::is_empty`. -/
def CoordBuf.isEmpty (c : CoordBuf) : Bool := c.len == 0

/-- The `(chunk[0], chunk[1])` views of `flat.chunks(d)`: `none` models the
panic on a stride below 2 or on a trailing chunk of a single element. -/
def coordPairsGo : Nat → Nat → List F64 → Option (List (F64 × F64))
  | _, _, [] => some []
  | 0, _, _ :: _ => none
  | _ + 1, _, [_] => none
  | fuel + 1, d, x :: y :: rest =>
    if d < 2 then none
    else do
      let ps ← coordPairsGo fuel d ((x :: y :: rest).drop d)
      pure ((x, y) :: ps)

/-- The x/y pairs the interleaved folds read from a flat buffer. -/
def coordPairs (d : Nat) (flat : List F64) : Option (List (F64 × F64)) :=
  coordPairsGo flat.length d flat

/-- One step of the interleaved fold of `min_max_2d` (`src/compute.rs`):
two independent updates per axis, a new maximum rejected when NaN. -/
def minMaxStep (acc : (F64 × F64) × (F64 × F64)) (c : F64 × F64) :
    (F64 × F64) × (F64 × F64) :=
  let ((xmin, ymin), (xmax, ymax)) := acc
  let (x, y) := c
  let xmin := if x.lt xmin then x else xmin
  let xmax := if xmax.lt x && !x.isNan then x else xmax
  let ymin := if y.lt ymin then y else ymin
  let ymax := if ymax.lt y && !y.isNan then y else ymax
  ((xmin, ymin), (xmax, ymax))

/-- `min_max_2d` (`src/compute.rs`): `((xmin, ymin), (xmax, ymax))` of a
coordinate buffer. An empty buffer returns
`((f64::MAX, f64::MAX), (f64::MIN, f64::MIN))`; the interleaved layout
folds over stride-sized chunks starting from the infinities; the separated
layout filters NaN from each axis independently when `empty_point_check`
is set and then takes `arrow` min/max with `unwrap_or(MAX/MIN)`. -/
def minMax2d (c : CoordBuf) (emptyPointCheck : Bool) :
    Option ((F64 × F64) × (F64 × F64)) :=
  if c.isEmpty then some ((f64MAX, f64MAX), (f64MIN, f64MIN))
  else
    match c with
    | .interleaved d flat => do
        let ps ← coordPairs d flat
        pure (ps.foldl minMaxStep ((.posInf, .posInf), (.negInf, .negInf)))
    | .separated xs ys =>
        let xs := if emptyPointCheck then xs.filter (fun x => !x.isNan) else xs
        let ys := if emptyPointCheck then ys.filter (fun y => !y.isNan) else ys
        some (((arrowMin xs).getD f64MAX, (arrowMin ys).getD f64MAX),
              ((arrowMax xs).getD f64MIN, (arrowMax ys).getD f64MIN))

/-- One step of the interleaved fold private to `envelope`
(`src/udfs/envelope.rs` lines 342-365): unlike `minMaxStep`, each axis
uses `if x < xmin { xmin = x } else if x > xmax { xmax = x }` — the
maximum update sits in the `else` branch of the minimum update. -/
def envelopeStep (acc : (F64 × F64) × (F64 × F64)) (c : F64 × F64) :
    (F64 × F64) × (F64 × F64) :=
  let ((xmin, ymin), (xmax, ymax)) := acc
  let (x, y) := c
  let (xmin, xmax) := if x.lt xmin then (x, xmax)
                      else if xmax.lt x then (xmin, x) else (xmin, xmax)
  let (ymin, ymax) := if y.lt ymin then (y, ymax)
                      else if ymax.lt y then (ymin, y) else (ymin, ymax)
  ((xmin, ymin), (xmax, ymax))

/-- A polygon value as the envelope kernel builds one: the list of its
rings, each ring a list of (x, y) coordinates (the builder's output uses
the separated XY layout; only ring structure and coordinates matter
here). -/
abbrev PolyRings : Type := List (List (F64 × F64))

/-- The free function `envelope` (`src/udfs/envelope.rs` lines 331-392).
An empty coordinate buffer yields the geometry-offsets `[1]` /
ring-offsets `[0]` polygon, i.e. one ring holding no coordinate;
otherwise the extremes are computed (interleaved: the `envelopeStep`
fold from the infinities; separated: `arrow` min/max with `unwrap`) and
the ring `[(xmin,ymin), (xmax,ymin), (xmax,ymax), (xmin,ymax),
(xmin,ymin)]` is produced. -/
def envelopeOf (c : CoordBuf) : Option PolyRings :=
  if c.isEmpty then some [[]]
  else do
    let r ← match c with
      | .interleaved d flat => do
          let ps ← coordPairs d flat
          pure (ps.foldl envelopeStep ((F64.posInf, F64.posInf), (F64.negInf, F64.negInf)))
      | .separated xs ys => do
          let xmin ← arrowMin xs
          let ymin ← arrowMin ys
          let xmax ← arrowMax xs
          let ymax ← arrowMax ys
          pure ((xmin, ymin), (xmax, ymax))
    let ((xmin, ymin), (xmax, ymax)) := r
    pure [[(xmin, ymin), (xmax, ymin), (xmax, ymax), (xmin, ymax), (xmin, ymin)]]

/-- `CoordBuffer::slice(offset, length)`. -/
def CoordBuf.slice : CoordBuf → Nat → Nat → CoordBuf
  | .interleaved d flat, off, len => .interleaved d ((flat.drop (off * d)).take (len * d))
  | .separated xs ys, off, len => .separated ((xs.drop off).take len) ((ys.drop off).take len)

/-- `CoordBuffer::get_x(i)`: the first component of coordinate `i`. -/
def CoordBuf.getX : CoordBuf → Nat → Option F64
  | .interleaved d flat, i => flat[i * d]?
  | .separated xs _, i => xs[i]?

/-- `CoordBuffer::get_y(i)`: the second component of coordinate `i`. -/
def CoordBuf.getY : CoordBuf → Nat → Option F64
  | .interleaved d flat, i => flat[i * d + 1]?
  | .separated _ ys, i => ys[i]?

/-- `point_coord_buffer` (`src/udfs/envelope.rs` lines 231-247) for one
row, given its validity bit: an invalid row yields `none` (pushed as a
null), a valid row whose x and y are both NaN yields the zero-length
slice ("hack for empty point"), any other valid row the one-coordinate
slice. The outer `Option` models the panic of an out-of-range read. -/
def pointCoordBuffer (c : CoordBuf) (valid : Bool) (i : Nat) :
    Option (Option CoordBuf) :=
  match valid with
  | true => do
      let x ← c.getX i
      let y ← c.getY i
      pure (some (if x.isNan && y.isNan then c.slice i 0 else c.slice i 1))
  | false => pure none

/-- The `array_envelope_impl` loop (`src/udfs/envelope.rs` lines 162-189)
instantiated at `PointArray` rows `i, i+1, ...`: per row,
`point_coord_buffer` then `push_polygon(Some(envelope(coords)))` for a
recovered buffer — a valid output row — or `push_polygon(None)` — a null
output row. -/
def arrayEnvelopePointGo (c : CoordBuf) : Nat → List Bool → Option (List (Option PolyRings))
  | _, [] => some []
  | i, v :: rest => do
      let r ← pointCoordBuffer c v i
      let row ← match r with
        | some cb => (envelopeOf cb).map some
        | none => pure (none : Option PolyRings)
      let rows ← arrayEnvelopePointGo c (i + 1) rest
      pure (row :: rows)

/-- `ST_Envelope` over a native point array: `validity` is the null
bitmap, `c` the coordinate buffer. -/
def arrayEnvelopePoint (c : CoordBuf) (validity : List Bool) :
    Option (List (Option PolyRings)) :=
  arrayEnvelopePointGo c 0 validity

/-- Whether the polygon a kernel produced — read as its single ring's
corner coordinates 0 (lower corner) and 2 (upper corner) — contains the
point `p` in both axes. -/
def ringBoxContains (rings : PolyRings) (p : F64 × F64) : Bool :=
  match rings with
  | [ring] =>
    match ring[0]?, ring[2]? with
    | some (x0, y0), some (x2, y2) =>
        x0.le p.1 && p.1.le x2 && y0.le p.2 && p.2.le y2
    | _, _ => false
  | _ => false

/-- Modelled from the spec: §4.4.3's WKB path parses each value with the
external `geo` crate and keeps only its bounding rectangle —
`bounding_rect()` is `None` exactly for an empty geometry ("absent or
empty → null output"). A parsed WKB geometry is therefore summarised by
that optional rectangle `((xmin, ymin), (xmax, ymax))`. -/
structure WkbGeom where
  bbox : Option ((F64 × F64) × (F64 × F64))
deriving DecidableEq

/-- Modelled from the spec: `Rect::to_polygon` pushed by the WKB branch of
`Envelope::invoke` — the 5-coordinate closed ring `(xmin ymin, xmax ymin,
xmax ymax, xmin ymax, xmin ymin)` of §4.4.3. -/
def rectRing (r : (F64 × F64) × (F64 × F64)) : PolyRings :=
  let ((xmin, ymin), (xmax, ymax)) := r
  [[(xmin, ymin), (xmax, ymin), (xmax, ymax), (xmin, ymax), (xmin, ymin)]]

/-- One row of the WKB branch of `Envelope::invoke` (`src/udfs/envelope.rs`
lines 100-128): `geom.and_then(bounding_rect).map(to_polygon)` pushed into
the builder — `none` (a null input row, or a row whose geometry has no
bounding rectangle) becomes a null output row. -/
def envelopeWkbRow (g : Option WkbGeom) : Option PolyRings :=
  (g.bind WkbGeom.bbox).map rectRing

/-- The WKB branch of `Envelope::invoke` over a whole column. -/
def envelopeWkb (rows : List (Option WkbGeom)) : List (Option PolyRings) :=
  rows.map envelopeWkbRow

/-- The null mask of a column: `true` at the null rows. -/
def nullMask (l : List (Option α)) : List Bool := l.map Option.isNone

/-- C1. The spec's merge semantics say each serialized state column
(ordering `[xmin, xmax, ymin, ymax]`) is reduced and combined into the
receiver under the operator matching the column — min into `xmin`/`ymin`,
max into `xmax`/`ymax`. The code does not: merging the serialized state of
an accumulator holding the single point (1, 2) — the columns
`[[1], [1], [2], [2]]`, as `stateVec` shows — into a fresh accumulator
folds the `xmax` column into `ymin` and combines `xmax`/`ymax` with min,
leaving both at `f64::MIN`, where the spec's merge yields
(xmin 1, ymin 2, xmax 1, ymax 2). -/
theorem extent_merge_batch_misorders_and_mins_upper_bounds :
    ExtentAccumulator.stateVec
        { xmin := .fin 1, ymin := .fin 2, xmax := .fin 1, ymax := .fin 2 }
      = [.fin 1, .fin 1, .fin 2, .fin 2]
    ∧ ExtentAccumulator.mergeBatch .new [[.fin 1], [.fin 1], [.fin 2], [.fin 2]]
      = some { xmin := .fin 1, ymin := .fin 1, xmax := f64MIN, ymax := f64MIN }
    ∧ ExtentAccumulator.mergeBatchSpec .new [[.fin 1], [.fin 1], [.fin 2], [.fin 2]]
      = some { xmin := .fin 1, ymin := .fin 2, xmax := .fin 1, ymax := .fin 2 }
    ∧ ExtentAccumulator.mergeBatch .new [[.fin 1], [.fin 1], [.fin 2], [.fin 2]]
      ≠ ExtentAccumulator.mergeBatchSpec .new [[.fin 1], [.fin 1], [.fin 2], [.fin 2]] := by
  refine ⟨rfl, by decide, by decide, by decide⟩

/-- C2. On the interleaved layout the envelope's private fold updates the
maximum only in the `else` branch of the minimum update, so the very first
coordinate (which always lowers the minimum from +∞) never raises the
maximum: the native point row (5, 5) produces a 5-coordinate ring whose
upper corner is (−∞, −∞), a polygon that does not contain the row's own
coordinate. The correct sibling primitive `min_max_2d` returns the right
extremes on the same buffer. -/
theorem envelope_interleaved_ring_misses_input_coordinate :
    arrayEnvelopePoint (.interleaved 2 [.fin 5, .fin 5]) [true]
      = some [some [[(.fin 5, .fin 5), (.negInf, .fin 5), (.negInf, .negInf),
                     (.fin 5, .negInf), (.fin 5, .fin 5)]]]
    ∧ ringBoxContains [[(.fin 5, .fin 5), (.negInf, .fin 5), (.negInf, .negInf),
                        (.fin 5, .negInf), (.fin 5, .fin 5)]] (.fin 5, .fin 5) = false
    ∧ minMax2d (.interleaved 2 [.fin 5, .fin 5]) true
      = some ((.fin 5, .fin 5), (.fin 5, .fin 5)) := by
  refine ⟨by decide, by decide, by decide⟩

/-- C3. A valid native Point row whose x and y are both NaN (the
empty-point sentinel) is pushed as `Some(envelope(zero-length slice))`,
i.e. as a valid row holding the degenerate one-ring, zero-coordinate
polygon `[[]]` — not as a null row. Only the WKB path maps an absent or
empty geometry to a null row. -/
theorem envelope_empty_point_row_is_not_null :
    arrayEnvelopePoint (.interleaved 2 [.nan, .nan]) [true] = some [some [[]]]
    ∧ (some [[]] : Option PolyRings) ≠ none
    ∧ envelopeWkbRow none = none
    ∧ envelopeWkbRow (some ⟨none⟩) = none := by
  refine ⟨by decide, by decide, rfl, rfl⟩

/-- C7 counterexample. The extent identity element in the code is not
(+∞, +∞, −∞, −∞): a freshly constructed accumulator holds the finite
`f64::MAX` in `xmin`, and `min_max_2d` of an empty interleaved buffer
returns `f64::MAX`/`f64::MIN` bounds, not the infinities. -/
theorem extent_identity_is_not_infinite :
    ExtentAccumulator.new.xmin ≠ F64.posInf
    ∧ f64MAX ≠ F64.posInf
    ∧ minMax2d (.interleaved 2 []) true
      ≠ some ((F64.posInf, F64.posInf), (F64.negInf, F64.negInf)) := by
  refine ⟨by decide, by decide, by decide⟩

/-- C7 as amended: the identity element is
`(f64::MAX, f64::MAX, f64::MIN, f64::MIN)` — the fresh accumulator holds
exactly those values, and `min_max_2d` of an empty coordinate buffer
(either layout, any stride, either `skip_empty_point` flag) returns
`((f64::MAX, f64::MAX), (f64::MIN, f64::MIN))`. -/
theorem extent_identity_is_extreme_finite :
    ExtentAccumulator.new
      = { xmin := f64MAX, ymin := f64MAX, xmax := f64MIN, ymax := f64MIN }
    ∧ (∀ (d : Nat) (b : Bool),
        minMax2d (.interleaved d []) b = some ((f64MAX, f64MAX), (f64MIN, f64MIN)))
    ∧ (∀ b : Bool,
        minMax2d (.separated [] []) b = some ((f64MAX, f64MAX), (f64MIN, f64MIN))) := by
  refine ⟨rfl, fun d b => ?_, fun b => rfl⟩
  simp [minMax2d, CoordBuf.isEmpty, CoordBuf.len, Nat.zero_div]

/-- C8 counterexample. `ST_Envelope` does not preserve the null mask: a
WKB column whose single row is valid but holds an empty geometry (one
without a bounding rectangle) produces a null output row. -/
theorem envelope_wkb_null_mask_differs :
    nullMask (envelopeWkb [some ⟨none⟩]) ≠ nullMask [(some ⟨none⟩ : Option WkbGeom)] := by
  decide

/-- Decimal digits of the fractional part `r` (with `0 ≤ r < 1`), emitted
until the expansion terminates or the fuel runs out. -/
def fracDigitsGo : Nat → ℚ → String
  | 0, _ => ""
  | fuel + 1, r =>
    if r = 0 then ""
    else
      let r10 := r * 10
      let d := r10.floor
      toString d ++ fracDigitsGo fuel (r10 - (d : ℚ))

/-- Models Rust's `{:?}` (Debug) float formatting as the WKT writer invokes
it (`add_coord`, `rect_to_wkt` in `src/wkt/scalar.rs`): a whole number
prints as the integer with a trailing `.0`; a fractional value prints sign,
integer part, `.` and its decimal expansion. Every coordinate in the
statements below is a whole number, for which Debug's shortest round-trip
rendering is exactly this. -/
def fmtQ (q : ℚ) : String :=
  if q.den = 1 then toString q.num ++ ".0"
  else
    let sign := if q < 0 then "-" else ""
    let a := if q < 0 then -q else q
    let ip := a.floor
    sign ++ toString ip ++ "." ++ fracDigitsGo 40 (a - (ip : ℚ))

/-- The dimension tag `geo_traits::Dimensions` as the writer reads it. -/
inductive WktDim where
  | xy
  | xyz
  | xym
  | xyzm
  | unknown (n : Nat)
deriving DecidableEq

/-- `add_dimension` (`src/wkt/scalar.rs` lines 215-238): the infix written
after the keyword of a non-empty geometry, and the number of coordinate
components to print. -/
def addDimension : WktDim → String × Nat
  | .xy => (" ", 2)
  | .xyz => (" Z ", 3)
  | .xym => (" M ", 3)
  | .xyzm => (" ZM ", 4)
  | .unknown n => (" ", n)

/-- `add_coord` (`src/wkt/scalar.rs` lines 240-248): component 0, then a
space-separated component for each index `1..n`; `none` models the panic
of `nth_unchecked` past the coordinate's length. -/
def addCoord (co : List ℚ) (n : Nat) : Option String := do
  let x0 ← co[0]?
  let tail ← (List.range' 1 (n - 1)).mapM (fun i => co[i]?)
  pure (fmtQ x0 ++ String.join (tail.map (fun q => " " ++ fmtQ q)))

/-- `add_point`: one parenthesized coordinate. -/
def addPoint (co : List ℚ) (n : Nat) : Option String :=
  (addCoord co n).map (fun s => "(" ++ s ++ ")")

/-- The `,`-separated tail of `add_coords`. -/
def addCoordsRest (cs : List (List ℚ)) (n : Nat) : Option String :=
  match cs with
  | [] => some ""
  | c :: rest => do pure ("," ++ (← addCoord c n) ++ (← addCoordsRest rest n))

/-- `add_coords` (`src/wkt/scalar.rs` lines 260-278): a parenthesized
`,`-separated coordinate list; `none` models the panic of
`coords.next().unwrap()` on an empty iterator. -/
def addCoords (cs : List (List ℚ)) (n : Nat) : Option String :=
  match cs with
  | [] => none
  | c :: rest => do pure ("(" ++ (← addCoord c n) ++ (← addCoordsRest rest n) ++ ")")

/-- Interior rings, each preceded by `,`, as `polygon_to_wkt` and the
multi-polygon writer emit them. -/
def ringsRest (rs : List (List (List ℚ))) (n : Nat) : Option String :=
  match rs with
  | [] => some ""
  | r :: rest => do pure ("," ++ (← addCoords r n) ++ (← ringsRest rest n))

/-- The remaining points of `multi_point_to_wkt`, each preceded by `,`;
a point without a coordinate models the panic of `coord().unwrap()`. -/
def pointsRest (ps : List (Option (List ℚ))) (n : Nat) : Option String :=
  match ps with
  | [] => some ""
  | p :: rest => do
      let c ← p
      pure ("," ++ (← addPoint c n) ++ (← pointsRest rest n))

/-- The remaining coordinate groups of `multi_linestring_to_wkt`, each
preceded by `,`. -/
def linesRest (ls : List (List (List ℚ))) (n : Nat) : Option String :=
  match ls with
  | [] => some ""
  | l :: rest => do pure ("," ++ (← addCoords l n) ++ (← linesRest rest n))

/-- The remaining polygons of `multi_polygon_to_wkt`, each preceded by
`),(`; a polygon without an exterior models the panic of
`exterior().unwrap()`. -/
def mpolyRest (ps : List (Option (List (List ℚ)) × List (List (List ℚ)))) (n : Nat) :
    Option String :=
  match ps with
  | [] => some ""
  | (ext, ints) :: rest => do
      let e ← ext
      pure ("),(" ++ (← addCoords e n) ++ (← ringsRest ints n) ++ (← mpolyRest rest n))

/-- A non-collection geometry value as the `geo_traits` accessors present
one to the WKT writer: coordinates are the finite doubles they hold
(written as rationals), a point's missing coordinate is the empty point,
a polygon's exterior is optional, a rect is its two corners. -/
inductive SGeom where
  | point (dim : WktDim) (c : Option (List ℚ))
  | linestring (dim : WktDim) (cs : List (List ℚ))
  | polygon (dim : WktDim) (exterior : Option (List (List ℚ)))
      (interiors : List (List (List ℚ)))
  | multipoint (dim : WktDim) (pts : List (Option (List ℚ)))
  | multilinestring (dim : WktDim) (lines : List (List (List ℚ)))
  | multipolygon (dim : WktDim)
      (polys : List (Option (List (List ℚ)) × List (List (List ℚ))))
  | rect (lo hi : ℚ × ℚ)

/-- A geometry value: a plain variant, or a collection of them
(`geometry_collection_to_wkt` writes each member through the main
dispatch; nesting of collections inside collections is not exercised by
the repository and not modelled). -/
inductive GeomW where
  | simple (g : SGeom)
  | collection (dim : WktDim) (items : List SGeom)

/-- The upper-case keyword each writer emits first; a rect is written as
a `POLYGON` (`rect_to_wkt`). -/
def sgKeyword : SGeom → String
  | .point _ _ => "POINT"
  | .linestring _ _ => "LINESTRING"
  | .polygon _ _ _ => "POLYGON"
  | .multipoint _ _ => "MULTIPOINT"
  | .multilinestring _ _ => "MULTILINESTRING"
  | .multipolygon _ _ => "MULTIPOLYGON"
  | .rect _ _ => "POLYGON"

/-- Everything a variant's writer emits after its keyword
(`src/wkt/scalar.rs` lines 25-213, branch by branch). -/
def sgeomBody : SGeom → Option String
  | .point _ none => some " EMPTY"
  | .point dim (some c) => do
      let (ds, n) := addDimension dim
      pure (ds ++ (← addPoint c n))
  | .linestring dim cs =>
      if cs.length > 0 then do
        let (ds, n) := addDimension dim
        pure (ds ++ (← addCoords cs n))
      else some " EMPTY"
  | .polygon dim ext ints =>
      match ext with
      | some e =>
          if e.length > 0 then do
            let (ds, n) := addDimension dim
            pure (ds ++ "(" ++ (← addCoords e n) ++ (← ringsRest ints n) ++ ")")
          else some " EMPTY"
      | none => some " EMPTY"
  | .multipoint dim pts =>
      match pts with
      | [] => some " EMPTY"
      | p :: rest => do
          let (ds, n) := addDimension dim
          let c ← p
          pure (ds ++ "(" ++ (← addPoint c n) ++ (← pointsRest rest n) ++ ")")
  | .multilinestring dim ls =>
      match ls with
      | [] => some " EMPTY"
      | l :: rest => do
          let (ds, n) := addDimension dim
          pure (ds ++ "(" ++ (← addCoords l n) ++ (← linesRest rest n) ++ ")")
  | .multipolygon dim ps =>
      match ps with
      | [] => some " EMPTY"
      | (ext, ints) :: rest => do
          let (ds, n) := addDimension dim
          let e ← ext
          pure (ds ++ "((" ++ (← addCoords e n) ++ (← ringsRest ints n)
                ++ (← mpolyRest rest n) ++ "))")
  | .rect (xl, yl) (xu, yu) =>
      some (" (" ++ fmtQ xl ++ " " ++ fmtQ yl ++ "," ++ fmtQ xu ++ " " ++ fmtQ yl
            ++ "," ++ fmtQ xu ++ " " ++ fmtQ yu ++ "," ++ fmtQ xl ++ " " ++ fmtQ yu
            ++ "," ++ fmtQ xl ++ " " ++ fmtQ yl ++ ")")

/-- A full non-collection WKT value: keyword then body. -/
def writeSGeomFull (g : SGeom) : Option String :=
  (sgeomBody g).map (fun t => sgKeyword g ++ t)

/-- The remaining members of a collection, each preceded by `,`. -/
def collRest (items : List SGeom) : Option String :=
  match items with
  | [] => some ""
  | g :: rest => do pure ("," ++ (← writeSGeomFull g) ++ (← collRest rest))

/-- What `geometry_collection_to_wkt` emits after its keyword. -/
def collBody (dim : WktDim) (items : List SGeom) : Option String :=
  match items with
  | [] => some " EMPTY"
  | g :: rest => do
      pure ((addDimension dim).1 ++ "(" ++ (← writeSGeomFull g) ++ (← collRest rest) ++ ")")

/-- `geometry_to_wkt` (`src/wkt/scalar.rs`): the full textual form of a
geometry; `none` models the writer's panics on malformed values. -/
def writeGeometry : GeomW → Option String
  | .simple g => (sgeomBody g).map (fun t => sgKeyword g ++ t)
  | .collection dim items => (collBody dim items).map (fun t => "GEOMETRYCOLLECTION" ++ t)

/-- The keyword belonging to a geometry value. -/
def keywordOf : GeomW → String
  | .simple g => sgKeyword g
  | .collection _ _ => "GEOMETRYCOLLECTION"

/-- Emptiness as the writers test it, branch by branch. -/
def SGeom.isEmptyW : SGeom → Bool
  | .point _ c => c.isNone
  | .linestring _ cs => cs.isEmpty
  | .polygon _ ext _ =>
      match ext with
      | none => true
      | some e => e.isEmpty
  | .multipoint _ pts => pts.isEmpty
  | .multilinestring _ ls => ls.isEmpty
  | .multipolygon _ ps => ps.isEmpty
  | .rect _ _ => false

/-- Emptiness of a geometry value. -/
def GeomW.isEmptyW : GeomW → Bool
  | .simple g => g.isEmptyW
  | .collection _ items => items.isEmpty

/-- A variant writer that has emitted its keyword writes exactly ` EMPTY`
after it when its value is empty. -/
theorem sgeomBody_of_empty (sg : SGeom) (h : sg.isEmptyW = true) :
    sgeomBody sg = some " EMPTY" := by
  cases sg with
  | point dim oc =>
      cases oc with
      | none => rfl
      | some cv => simp [SGeom.isEmptyW] at h
  | linestring dim cs =>
      cases cs with
      | nil => rfl
      | cons a l => simp [SGeom.isEmptyW] at h
  | polygon dim ext ints =>
      cases ext with
      | none => rfl
      | some e =>
          cases e with
          | nil => rfl
          | cons a l => simp [SGeom.isEmptyW] at h
  | multipoint dim pts =>
      cases pts with
      | nil => rfl
      | cons a l => simp [SGeom.isEmptyW] at h
  | multilinestring dim ls =>
      cases ls with
      | nil => rfl
      | cons a l => simp [SGeom.isEmptyW] at h
  | multipolygon dim ps =>
      cases ps with
      | nil => rfl
      | cons a l => simp [SGeom.isEmptyW] at h
  | rect lo hi => simp [SGeom.isEmptyW] at h

/-- C9. The WKT writer emits the upper-case variant keyword first, emits
exactly ` EMPTY` after it when the value is empty, renders whole-number
coordinates with a trailing `.0`, and serializes the 2D polygon whose
single exterior ring is (0,0),(4,0),(2,4),(0,0) to exactly
`POLYGON ((0.0 0.0,4.0 0.0,2.0 4.0,0.0 0.0))`. -/
theorem wkt_writer_keyword_empty_and_whole_number_floats :
    (∀ (g : GeomW) (s : String), writeGeometry g = some s →
       (∃ t, s = keywordOf g ++ t)
       ∧ (g.isEmptyW = true → s = keywordOf g ++ " EMPTY"))
    ∧ (∀ z : ℤ, fmtQ (z : ℚ) = toString z ++ ".0")
    ∧ writeGeometry (.simple (.polygon .xy (some [[0, 0], [4, 0], [2, 4], [0, 0]]) []))
      = some "POLYGON ((0.0 0.0,4.0 0.0,2.0 4.0,0.0 0.0))" := by
  refine ⟨?_, ?_, by decide⟩
  · intro g s h
    cases g with
    | simple sg =>
        simp only [writeGeometry] at h
        obtain ⟨t, ht, rfl⟩ := Option.map_eq_some'.mp h
        refine ⟨⟨t, rfl⟩, fun hE => ?_⟩
        have hB := sgeomBody_of_empty sg hE
        rw [ht] at hB
        injection hB with hB
        rw [hB]
        rfl
    | collection dim items =>
        simp only [writeGeometry] at h
        obtain ⟨t, ht, rfl⟩ := Option.map_eq_some'.mp h
        refine ⟨⟨t, rfl⟩, fun hE => ?_⟩
        cases items with
        | nil =>
            injection ht with ht
            rw [← ht]
            rfl
        | cons a l => simp [GeomW.isEmptyW] at hE
  · intro z
    simp [fmtQ, Rat.den_intCast, Rat.num_intCast]

/-- C9 witness: the keyword/EMPTY contract evaluated at the empty point,
whose serialization is `POINT EMPTY`. -/
theorem wkt_writer_keyword_empty_and_whole_number_floats_witness :
    (∃ t, "POINT EMPTY" = keywordOf (.simple (.point .xy none)) ++ t)
    ∧ (GeomW.isEmptyW (.simple (.point .xy none)) = true →
        "POINT EMPTY" = keywordOf (.simple (.point .xy none)) ++ " EMPTY") :=
  wkt_writer_keyword_empty_and_whole_number_floats.1 (.simple (.point .xy none))
    "POINT EMPTY" rfl

/-- The `array_to_wkt_impl` loop (`src/wkt/array.rs` lines 23-43): per row,
a null is appended as a null, a geometry is written and appended as a
value; a writer failure aborts the whole batch. -/
def arrayToWkt : List (Option GeomW) → Option (List (Option String))
  | [] => some []
  | none :: rest => (arrayToWkt rest).map (fun rs => none :: rs)
  | some g :: rest => do
      let s ← writeGeometry g
      let rs ← arrayToWkt rest
      pure (some s :: rs)

/-- A kernel result column: either a materialized array or a scalar to be
broadcast by the engine. -/
inductive ColumnarStr where
  | arrayOut (rows : List (Option String))
  | scalarOut (s : String)

/-- `geomtype.replace(' ', "")` as `GeometryType::invoke` applies it. -/
def removeSpaces (s : String) : String := ⟨s.data.filter (fun ch => !(ch == ' '))⟩

/-- `null_count()` of a column. -/
def nullCount (rows : List (Option α)) : Nat := (rows.filter Option.isNone).length

/-- The native branch of `GeometryType::invoke` (`src/udfs/geometry_type.rs`
lines 94-110): the literal `ST_<type>` is derived once from the constant
tag; a column with nulls materializes it at the valid rows and null
elsewhere, a null-free column returns the broadcastable scalar. -/
def geometryTypeNative (geomtype : String) (rows : List (Option α)) : ColumnarStr :=
  let gs := "ST_" ++ removeSpaces geomtype
  if nullCount rows > 0 then
    .arrayOut (rows.map (fun r => if r.isSome then some gs else none))
  else
    .scalarOut gs

/-- Modelled from the spec: the engine broadcasts a scalar kernel result
over the batch length (§8 compares masks "after broadcasting a scalar
result"); a non-null scalar becomes an all-valid column. -/
def broadcastStr (cv : ColumnarStr) (n : Nat) : List (Option String) :=
  match cv with
  | .arrayOut rows => rows
  | .scalarOut s => List.replicate n (some s)

/-- A null-free column's null mask is all-false. -/
theorem nullMask_of_nullCount_zero (rows : List (Option α)) (h : nullCount rows = 0) :
    nullMask rows = List.replicate rows.length false := by
  induction rows with
  | nil => rfl
  | cons r rest ih =>
      cases r with
      | none => simp [nullCount, List.filter] at h
      | some v =>
          simp only [nullCount, List.filter] at h ih ⊢
          simp only [nullMask, List.map, List.length_cons, List.replicate]
          exact congrArg (List.cons false) (ih h)

/-- `array_to_wkt_impl` preserves length and null mask. -/
theorem arrayToWkt_mask (rows : List (Option GeomW)) (out : List (Option String))
    (h : arrayToWkt rows = some out) :
    out.length = rows.length ∧ nullMask out = nullMask rows := by
  induction rows generalizing out with
  | nil =>
      simp only [arrayToWkt, Option.some_inj] at h
      subst h
      exact ⟨rfl, rfl⟩
  | cons r rest ih =>
      cases r with
      | none =>
          simp only [arrayToWkt] at h
          obtain ⟨rs, hrs, rfl⟩ := Option.map_eq_some'.mp h
          obtain ⟨hl, hm⟩ := ih rs hrs
          refine ⟨by simp [hl], ?_⟩
          simp only [nullMask, List.map] at hm ⊢
          simp [hm]
      | some g =>
          simp only [arrayToWkt, Option.bind_eq_bind, Option.bind_eq_some,
            Option.pure_def, Option.some_inj] at h
          obtain ⟨s, hs, rs, hrs, rfl⟩ := h
          obtain ⟨hl, hm⟩ := ih rs hrs
          refine ⟨by simp [hl], ?_⟩
          simp only [nullMask, List.map] at hm ⊢
          simp [hm]

/-- The native `GeometryType` branch preserves length and null mask after
broadcasting. -/
theorem geometryTypeNative_mask (gt : String) (rows : List (Option α)) :
    (broadcastStr (geometryTypeNative gt rows) rows.length).length = rows.length
    ∧ nullMask (broadcastStr (geometryTypeNative gt rows) rows.length) = nullMask rows := by
  by_cases h : nullCount rows > 0
  · simp only [geometryTypeNative, if_pos h, broadcastStr]
    constructor
    · simp
    · simp only [nullMask, List.map_map]
      refine List.map_congr_left (fun r _ => ?_)
      cases r <;> simp
  · have h0 : nullCount rows = 0 := Nat.eq_zero_of_not_pos h
    simp only [geometryTypeNative, if_neg h, broadcastStr]
    refine ⟨List.length_replicate _ _, ?_⟩
    rw [nullMask_of_nullCount_zero rows h0]
    simp [nullMask, List.map_replicate]

/-- The point-array envelope loop: output length equals the validity
bitmap's length and output row `i` is null exactly when row `i` is
invalid. -/
theorem arrayEnvelopePointGo_mask (cb : CoordBuf) (validity : List Bool) (i : Nat)
    (out : List (Option PolyRings)) (h : arrayEnvelopePointGo cb i validity = some out) :
    out.length = validity.length ∧ nullMask out = validity.map (fun v => !v) := by
  induction validity generalizing i out with
  | nil =>
      simp only [arrayEnvelopePointGo, Option.some_inj] at h
      subst h
      exact ⟨rfl, rfl⟩
  | cons v rest ih =>
      simp only [arrayEnvelopePointGo, Option.bind_eq_bind, Option.bind_eq_some] at h
      obtain ⟨r, hr, h2⟩ := h
      cases v with
      | false =>
          have hr0 : (some none : Option (Option CoordBuf)) = some r := hr
          injection hr0 with hr0
          subst hr0
          simp only [Option.pure_def, Option.some_bind, Option.bind_eq_some,
            Option.some_inj] at h2
          obtain ⟨rows, hrows, rfl⟩ := h2
          obtain ⟨hl, hm⟩ := ih (i + 1) rows hrows
          refine ⟨by simp [hl], ?_⟩
          simp only [nullMask, List.map] at hm ⊢
          simp [hm]
      | true =>
          simp only [pointCoordBuffer, Option.bind_eq_bind, Option.bind_eq_some,
            Option.pure_def, Option.some_inj] at hr
          obtain ⟨x, hx, y, hy, hr2⟩ := hr
          subst hr2
          simp only [Option.map_eq_some', Option.pure_def, Option.some_bind,
            Option.bind_eq_some, Option.some_inj] at h2
          obtain ⟨row, ⟨p, hp, hrow⟩, rows, hrows, rfl⟩ := h2
          subst hrow
          obtain ⟨hl, hm⟩ := ih (i + 1) rows hrows
          refine ⟨by simp [hl], ?_⟩
          simp only [nullMask, List.map] at hm ⊢
          simp [hm]

/-- C8 as amended: every embedded scalar kernel keeps the input length;
`ST_AsText` and `ST_GeometryType` keep the null mask exactly (scalar
broadcast included), and `ST_Envelope` keeps it on the native path — but
on the WKB path null-in implies null-out only, a valid row without a
bounding rectangle also going to null. -/
theorem scalar_kernel_length_and_null_mask :
    (∀ (rows : List (Option GeomW)) (out : List (Option String)),
        arrayToWkt rows = some out →
        out.length = rows.length ∧ nullMask out = nullMask rows)
    ∧ (∀ (gt : String) (rows : List (Option Unit)),
        (broadcastStr (geometryTypeNative gt rows) rows.length).length = rows.length
        ∧ nullMask (broadcastStr (geometryTypeNative gt rows) rows.length) = nullMask rows)
    ∧ (∀ rows : List (Option WkbGeom),
        (envelopeWkb rows).length = rows.length
        ∧ ∀ i : Nat, rows[i]? = some none → (envelopeWkb rows)[i]? = some none)
    ∧ (∀ (cb : CoordBuf) (validity : List Bool) (out : List (Option PolyRings)),
        arrayEnvelopePoint cb validity = some out →
        out.length = validity.length ∧ nullMask out = validity.map (fun v => !v)) := by
  refine ⟨arrayToWkt_mask, fun gt rows => geometryTypeNative_mask gt rows, ?_, ?_⟩
  · intro rows
    refine ⟨List.length_map _ _, fun i hi => ?_⟩
    simp only [envelopeWkb, List.getElem?_map, hi, Option.map_some']
    rfl
  · intro cb validity out h
    exact arrayEnvelopePointGo_mask cb validity 0 out h

/-- C8 witness: the mask contract evaluated on a two-row column holding an
empty point and a null. -/
theorem scalar_kernel_length_and_null_mask_witness :
    ([some "POINT EMPTY", none] : List (Option String)).length
      = ([some (GeomW.simple (.point .xy none)), none] : List (Option GeomW)).length
    ∧ nullMask ([some "POINT EMPTY", none] : List (Option String))
      = nullMask ([some (GeomW.simple (.point .xy none)), none] : List (Option GeomW)) :=
  scalar_kernel_length_and_null_mask.1
    [some (GeomW.simple (.point .xy none)), none] [some "POINT EMPTY", none] rfl

/-- A kernel argument as `ColumnarValue` presents it: the geometry column,
or a constant Utf8 literal. -/
inductive ArgV where
  | geomArr
  | litStr (s : String)
deriving DecidableEq

/-- `scalar_arg_as_str` (`src/udfs/helpers.rs` lines 15-26): the text of a
constant Utf8 argument; `none` models the `todo!`/`unimplemented!` panics
on an array or non-textual argument. -/
def scalarArgAsStr : ArgV → Option String
  | .litStr s => some s
  | .geomArr => none

/-- The geometry-column-encoding tag (`GeoParquetColumnEncoding`). -/
inductive EncodingTag where
  | wkb
  | point
  | linestring
  | polygon
  | multipoint
  | multilinestring
  | multipolygon
deriving DecidableEq

/-- The encoding parser `as_text.rs` imports: mirrors the `encoding` helper
of `src/udfs/helpers.rs` (lines 34-47, present there in commented-out
form), which accepts `WKB` and the lower-case native encodings — exactly
the spec's §6 encoding strings. -/
def parseEncoding : String → Option EncodingTag
  | "WKB" => some .wkb
  | "point" => some .point
  | "linestring" => some .linestring
  | "polygon" => some .polygon
  | "multipoint" => some .multipoint
  | "multilinestring" => some .multilinestring
  | "multipolygon" => some .multipolygon
  | _ => none

/-- The geometry-type tag (`GeoParquetGeometryType`): the OGC variants,
each with an optional Z form. -/
inductive GeomTypeTag where
  | point
  | linestring
  | polygon
  | multipoint
  | multilinestring
  | multipolygon
  | geometrycollection
  | pointZ
  | linestringZ
  | polygonZ
  | multipointZ
  | multilinestringZ
  | multipolygonZ
  | geometrycollectionZ
deriving DecidableEq

/-- `GeoParquetGeometryType::from_str` as the helpers invoke it: the spec's
§6 geometry-type strings, an optional `Z` suffix included. -/
def parseGeomType : String → Option GeomTypeTag
  | "Point" => some .point
  | "LineString" => some .linestring
  | "Polygon" => some .polygon
  | "MultiPoint" => some .multipoint
  | "MultiLineString" => some .multilinestring
  | "MultiPolygon" => some .multipolygon
  | "GeometryCollection" => some .geometrycollection
  | "Point Z" => some .pointZ
  | "LineString Z" => some .linestringZ
  | "Polygon Z" => some .polygonZ
  | "MultiPoint Z" => some .multipointZ
  | "MultiLineString Z" => some .multilinestringZ
  | "MultiPolygon Z" => some .multipolygonZ
  | "GeometryCollection Z" => some .geometrycollectionZ
  | _ => none

/-- The argument handling of `AsText::invoke` (`src/udfs/as_text.rs` lines
77-88): assert arity 3, then parse `args[1]` with the ENCODING parser and
`args[2]` with the GEOMETRY-TYPE parser. `none` models the assertion and
parse failures. -/
def asTextReadTags (args : List ArgV) : Option (EncodingTag × GeomTypeTag) :=
  if args.length = 3 then do
    let a1 ← args[1]?
    let s1 ← scalarArgAsStr a1
    let enc ← parseEncoding s1
    let a2 ← args[2]?
    let s2 ← scalarArgAsStr a2
    let gt ← parseGeomType s2
    pure (enc, gt)
  else none

/-- The argument handling of `Envelope::invoke` (`src/udfs/envelope.rs`
lines 84-94): assert arity 3, then parse `args[1]` as the geometry type
(`geom_type` helper); `args[2]` is never read. -/
def envelopeReadTags (args : List ArgV) : Option GeomTypeTag :=
  if args.length = 3 then do
    let a1 ← args[1]?
    let s1 ← scalarArgAsStr a1
    parseGeomType s1
  else none

/-- The argument handling of `GeometryType::invoke`
(`src/udfs/geometry_type.rs` lines 60-69): assert arity 3, then take
`args[1]`'s text as the geometry-type tag; `args[2]` is never read. -/
def geometryTypeReadTag (args : List ArgV) : Option String :=
  if args.length = 3 then do
    let a1 ← args[1]?
    scalarArgAsStr a1
  else none

/-- C4. All three scalar kernels assert arity 3, and `Envelope` and
`GeometryType` read `args[1]` as the geometry-type tag — but `AsText`
reads `args[1]` with the encoding parser and `args[2]` with the
geometry-type parser, the reverse of the canonical argument order the
analyzer appends (geometry-type first, then encoding): on the canonical
arguments `(geometry, "Polygon", "WKB")` AsText fails, and it succeeds
exactly on the reversed pair. -/
theorem as_text_reads_tags_reversed :
    asTextReadTags [.geomArr, .litStr "Polygon", .litStr "WKB"] = none
    ∧ asTextReadTags [.geomArr, .litStr "WKB", .litStr "Polygon"]
      = some (.wkb, .polygon)
    ∧ envelopeReadTags [.geomArr, .litStr "Polygon", .litStr "WKB"] = some .polygon
    ∧ geometryTypeReadTag [.geomArr, .litStr "Polygon", .litStr "WKB"]
      = some "Polygon"
    ∧ asTextReadTags [.geomArr] = none
    ∧ envelopeReadTags [.geomArr] = none
    ∧ geometryTypeReadTag [.geomArr] = none := by
  refine ⟨by decide, by decide, by decide, by decide, rfl, rfl, rfl⟩

/-- The Arrow data types the helpers inspect: the containers `coord_type`
peels (`List`, `FixedSizeList`, `Struct` — field types of the latter two
are never read, only their presence) and opaque leaves. -/
inductive DataTypeM where
  | binary
  | largeBinary
  | utf8
  | float64
  | list (child : DataTypeM)
  | fixedSizeList (n : Nat)
  | struct (n : Nat)
  | other
deriving DecidableEq

/-- The coordinate layout tag. -/
inductive CoordTypeTag where
  | interleaved
  | separated
deriving DecidableEq

/-- `coord_type` (`src/udfs/helpers.rs` lines 49-71): peel up to three
levels of `List`; a `FixedSizeList` found there means interleaved, a
`Struct` means separated, anything else `None`. -/
def coordType : DataTypeM → Option CoordTypeTag
  | .list l1 =>
    match l1 with
    | .fixedSizeList _ => some .interleaved
    | .struct _ => some .separated
    | .list l2 =>
      match l2 with
      | .fixedSizeList _ => some .interleaved
      | .struct _ => some .separated
      | .list l3 =>
        match l3 with
        | .fixedSizeList _ => some .interleaved
        | .struct _ => some .separated
        | _ => none
      | _ => none
    | _ => none
  | .fixedSizeList _ => some .interleaved
  | .struct _ => some .separated
  | _ => none

/-- Whether a data type has a `FixedSizeList` or `Struct` node among its
subterms (itself included). -/
def hasCoordNode : DataTypeM → Bool
  | .fixedSizeList _ => true
  | .struct _ => true
  | .list child => hasCoordNode child
  | _ => false

/-- A native geometry-layout descriptor (`geoarrow::datatypes::NativeType`):
variant with dimension, plus coordinate layout. -/
structure NativeTypeM where
  geomType : GeomTypeTag
  coordLayout : CoordTypeTag
deriving DecidableEq

/-- `native_type` (`src/udfs/helpers.rs` lines 109-133): derive the
coordinate layout from the argument's data type with
`coord_type(..).unwrap_or(CoordType::Separated)` and pair it with the
tagged variant; the `geometry_type` match is total over all 14 tags. -/
def nativeType (dt : DataTypeM) (geometryType : GeomTypeTag) : NativeTypeM :=
  { geomType := geometryType, coordLayout := (coordType dt).getD .separated }

/-- C10. `native_type` is total: whenever the argument's Arrow data type
has no `FixedSizeList` or `Struct` node among its subterms — so
`coord_type` returns `None` — it silently defaults the coordinate layout
to separated and returns the descriptor for the tagged variant rather
than failing. -/
theorem native_type_defaults_to_separated (dt : DataTypeM) (gt : GeomTypeTag)
    (h : hasCoordNode dt = false) :
    coordType dt = none
    ∧ nativeType dt gt = { geomType := gt, coordLayout := .separated } := by
  have hc : coordType dt = none := by
    cases dt with
    | list l1 =>
        cases l1 with
        | list l2 =>
            cases l2 with
            | list l3 =>
                cases l3 <;> simp_all [hasCoordNode, coordType]
            | _ => simp_all [hasCoordNode, coordType]
        | _ => simp_all [hasCoordNode, coordType]
    | _ => simp_all [hasCoordNode, coordType]
  exact ⟨hc, by simp [nativeType, hc]⟩

/-- C10 witness: a plain `List(Float64)` column (no coordinate node
anywhere) tagged `Point`. -/
theorem native_type_defaults_to_separated_witness :
    coordType (.list .float64) = none
    ∧ nativeType (.list .float64) .point
      = { geomType := .point, coordLayout := .separated } :=
  native_type_defaults_to_separated (.list .float64) .point rfl

/-- `str::starts_with` for the `ST_` tests (character-list prefix). -/
def strStartsWith (s p : String) : Bool := s.data.take p.data.length == p.data

/-- Per-column geo metadata: `{encoding, geometry_types}`, as the analyzer
stringifies them (`column.encoding.to_string()` and the variant names). -/
structure GeoColMeta where
  encoding : String
  geometryTypes : List String
deriving DecidableEq

/-- A table's parsed `geo` metadata: column name → column metadata. -/
abbrev GeoTableMeta : Type := List (String × GeoColMeta)

/-- The analyzer's memoized map: unqualified table name → parsed metadata. -/
abbrev GeoMap : Type := List (String × GeoTableMeta)

/-- A logical expression as the analyzer traverses one. -/
inductive ExprM where
  | column (relation : Option String) (cname : String)
  | litStr (s : String)
  | litNull
  | scalarFn (fname : String) (args : List ExprM)
  | aggFn (fname : String) (args : List ExprM)
  | aliasE (e : ExprM) (a : String)

/-- The geometry-type string of `infer_encoding_and_type`
(`src/rules.rs` lines 143-147): `Unknown` for an empty set, the single
variant name for a singleton, `Mixed` for two or more. -/
def geomTypeStr : List String → String
  | [] => "Unknown"
  | [v] => v
  | _ :: _ :: _ => "Mixed"

/-- The `apply_children` walk of `infer_encoding_and_type`
(`src/rules.rs` lines 131-170) over the call's direct children, with the
running output (initially two NULL literals from `Default::default()`):
the first qualified column resolving to a known geo column stops the walk
with `[geometry-type literal, encoding literal]`; an unresolved or
unqualified column continues; a `ST_Envelope` child stops with the
hard-coded `[Polygon, polygon]` pair; any other `ST_`-named scalar child
is the `todo!` panic (`none`); any other scalar child stops with the
output as it stands; everything else continues. -/
def inferGo (gm : GeoMap) : List ExprM → List ExprM → Option (List ExprM)
  | [], out => some out
  | .column (some t) n :: rest, out =>
    match gm.lookup t with
    | some tm =>
      match tm.lookup n with
      | some colMeta =>
          some [.litStr (geomTypeStr colMeta.geometryTypes), .litStr colMeta.encoding]
      | none => inferGo gm rest out
    | none => inferGo gm rest out
  | .column none _ :: rest, out => inferGo gm rest out
  | .scalarFn fname _ :: _, out =>
    if strStartsWith fname "ST_" then
      if fname = "ST_Envelope" then some [.litStr "Polygon", .litStr "polygon"]
      else none
    else some out
  | .aggFn _ _ :: rest, out => inferGo gm rest out
  | .litStr _ :: rest, out => inferGo gm rest out
  | .litNull :: rest, out => inferGo gm rest out
  | .aliasE _ _ :: rest, out => inferGo gm rest out

/-- `infer_encoding_and_type` applied to a call's children. -/
def inferEncodingAndType (gm : GeoMap) (children : List ExprM) : Option (List ExprM) :=
  inferGo gm children [.litNull, .litNull]

/-- Comma-joined rendering of argument names. -/
def joinComma : List String → String
  | [] => ""
  | [s] => s
  | s :: rest => s ++ "," ++ joinComma rest

/-- `Expr::name_for_alias` — the schema display name the analyzer attaches
as the alias of a rewritten call (an alias displays as its alias name, a
qualified column as `table.column`, a call as `name(args)`); the fuel
bounds expression depth, as everywhere below. -/
def nameForAliasF : Nat → ExprM → String
  | 0, _ => ""
  | fuel + 1, e =>
    match e with
    | .aliasE _ a => a
    | .column (some t) n => t ++ "." ++ n
    | .column none n => n
    | .litStr s => "Utf8(" ++ s ++ ")"
    | .litNull => "NULL"
    | .scalarFn fname args => fname ++ "(" ++ joinComma (args.map (nameForAliasF fuel)) ++ ")"
    | .aggFn fname args => fname ++ "(" ++ joinComma (args.map (nameForAliasF fuel)) ++ ")"

/-- The expression rewrite of `SpatialAnalyzerRule::analyze`
(`src/rules.rs` lines 62-115): a bottom-up `transform_up` that, at every
scalar or aggregate call whose name starts with `ST_`, computes the
original output name, appends the two inferred literal arguments to the
(already rewritten) argument list and aliases the new call with that
name. Other nodes pass through with rewritten children. The fuel bounds
recursion depth (`none` = exhausted); results returned as `some` are
unaffected by the choice of a sufficient fuel. -/
def rewriteExprF (gm : GeoMap) : Nat → ExprM → Option ExprM
  | 0, _ => none
  | fuel + 1, e =>
    match e with
    | .column r n => some (.column r n)
    | .litStr s => some (.litStr s)
    | .litNull => some .litNull
    | .aliasE e1 a => (rewriteExprF gm fuel e1).map (fun e' => .aliasE e' a)
    | .scalarFn fname args =>
        match args.mapM (rewriteExprF gm fuel) with
        | none => none
        | some args' =>
          if strStartsWith fname "ST_" then
            match inferEncodingAndType gm args' with
            | none => none
            | some adds =>
                some (.aliasE (.scalarFn fname (args' ++ adds))
                      (nameForAliasF (fuel + 1) (.scalarFn fname args')))
          else
            some (.scalarFn fname args')
    | .aggFn fname args =>
        match args.mapM (rewriteExprF gm fuel) with
        | none => none
        | some args' =>
          if strStartsWith fname "ST_" then
            match inferEncodingAndType gm args' with
            | none => none
            | some adds =>
                some (.aliasE (.aggFn fname (args' ++ adds))
                      (nameForAliasF (fuel + 1) (.aggFn fname args')))
          else
            some (.aggFn fname args')

/-- A logical plan: a table scan (whose projected schema either carries
parsed `geo` metadata or none) under projection nodes holding
expressions. -/
inductive LPlan where
  | tableScan (table : String) (geo : Option GeoTableMeta)
  | projection (exprs : List ExprM) (input : LPlan)

/-- The plan traversal of `SpatialAnalyzerRule::analyze` (`src/rules.rs`
lines 23-124): post-order; a table scan with `geo` metadata is memoized
into the map by unqualified table name if not already present (a scan
without it is left alone and its subtree cut); any other node rewrites
its expressions against the map gathered so far. -/
def analyzeGo (fuel : Nat) : LPlan → GeoMap → Option (LPlan × GeoMap)
  | .tableScan t geo, gm =>
    match geo with
    | some meta =>
        some (.tableScan t (some meta),
              if (gm.lookup t).isSome then gm else (t, meta) :: gm)
    | none => some (.tableScan t none, gm)
  | .projection exprs input, gm => do
      let (input', gm') ← analyzeGo fuel input gm
      let exprs' ← exprs.mapM (rewriteExprF gm' fuel)
      pure (.projection exprs' input', gm')

/-- `SpatialAnalyzerRule::analyze`: one full analyzer pass over a plan,
starting from an empty metadata map (the map is local to one call). -/
def analyzeRule (fuel : Nat) (p : LPlan) : Option LPlan :=
  (analyzeGo fuel p []).map Prod.fst

/-- The argument counts of every `ST_`-named call in an expression, outer
calls first. -/
def stAritiesE : Nat → ExprM → List Nat
  | 0, _ => []
  | fuel + 1, e =>
    match e with
    | .scalarFn fname args =>
        (if strStartsWith fname "ST_" then [args.length] else [])
          ++ (args.map (stAritiesE fuel)).flatten
    | .aggFn fname args =>
        (if strStartsWith fname "ST_" then [args.length] else [])
          ++ (args.map (stAritiesE fuel)).flatten
    | .aliasE e1 _ => stAritiesE fuel e1
    | _ => []

/-- The argument counts of every `ST_`-named call in a plan. -/
def stAritiesP (fuel : Nat) : LPlan → List Nat
  | .tableScan _ _ => []
  | .projection exprs input =>
      (exprs.map (stAritiesE fuel)).flatten ++ stAritiesP fuel input

/-- The one-table, one-projection plan
`SELECT ST_AsText(t.geom) FROM t`, where `t`'s metadata declares
`geom: {encoding: WKB, geometry_types: {Polygon}}`. -/
def egMeta : GeoTableMeta := [("geom", { encoding := "WKB", geometryTypes := ["Polygon"] })]

/-- The example plan for the idempotence check. -/
def egPlan : LPlan :=
  .projection [.scalarFn "ST_AsText" [.column (some "t") "geom"]]
    (.tableScan "t" (some egMeta))

/-- Whether the `apply_children` walk of `infer_encoding_and_type` passes
over this child and continues with the next: true for literals, aliases,
aggregate calls, unqualified columns and columns that resolve to no known
geo column; false for scalar-function children (which stop the walk). -/
def walkContinues (gm : GeoMap) : ExprM → Bool
  | .column (some t) n =>
    match gm.lookup t with
    | some tm => (tm.lookup n).isNone
    | none => true
  | .column none _ => true
  | .scalarFn _ _ => false
  | _ => true

/-- The walk of `infer_encoding_and_type` stops at the first resolving
column reference and returns the geometry-type and encoding literals of
that column's metadata, whatever output it was carrying. -/
theorem inferGo_first_resolving_column (gm : GeoMap) (pre : List ExprM)
    (t cn : String) (tm : GeoTableMeta) (colMeta : GeoColMeta) (post out : List ExprM)
    (hpre : ∀ e ∈ pre, walkContinues gm e = true)
    (ht : gm.lookup t = some tm) (hcn : tm.lookup cn = some colMeta) :
    inferGo gm (pre ++ .column (some t) cn :: post) out
      = some [.litStr (geomTypeStr colMeta.geometryTypes), .litStr colMeta.encoding] := by
  induction pre with
  | nil => simp [inferGo, ht, hcn]
  | cons e rest ih =>
      have he : walkContinues gm e = true := hpre e (List.mem_cons_self e rest)
      have hrest : ∀ x ∈ rest, walkContinues gm x = true :=
        fun x hx => hpre x (List.mem_cons_of_mem e hx)
      cases e with
      | column r n =>
          cases r with
          | some tq =>
              cases hgt : gm.lookup tq with
              | none => simpa [inferGo, hgt] using ih hrest
              | some tmq =>
                  have hnone : (tmq.lookup n).isNone = true := by
                    simpa [walkContinues, hgt] using he
                  cases hgn : tmq.lookup n with
                  | none => simpa [inferGo, hgt, hgn] using ih hrest
                  | some _ => simp [hgn] at hnone
          | none => simpa [inferGo] using ih hrest
      | litStr s => simpa [inferGo] using ih hrest
      | litNull => simpa [inferGo] using ih hrest
      | scalarFn f a => simp [walkContinues] at he
      | aggFn f a => simpa [inferGo] using ih hrest
      | aliasE e1 a => simpa [inferGo] using ih hrest

/-- C6. For an `ST_`-named scalar or aggregate call whose first resolvable
column reference (every earlier child being passed over by the walk) names
a known geo column of a known geo table, and whose arguments the pass
leaves unchanged, the analyzer appends exactly the two literal string
arguments — geometry-type first, then encoding — and aliases the
rewritten call with the expression's original output name; the
geometry-type string is `Unknown`, the single variant name, or `Mixed` by
the cardinality of the column's `geometry_types`. -/
theorem analyzer_appends_type_then_encoding_with_alias
    (gm : GeoMap) (fname : String) (fuel : Nat)
    (pre post : List ExprM) (t cn : String) (tm : GeoTableMeta) (colMeta : GeoColMeta)
    (hst : strStartsWith fname "ST_" = true)
    (ht : gm.lookup t = some tm)
    (hcn : tm.lookup cn = some colMeta)
    (hpre : ∀ e ∈ pre, walkContinues gm e = true)
    (hargs : (pre ++ .column (some t) cn :: post).mapM (rewriteExprF gm fuel)
        = some (pre ++ .column (some t) cn :: post)) :
    (rewriteExprF gm (fuel + 1) (.scalarFn fname (pre ++ .column (some t) cn :: post))
      = some (.aliasE
          (.scalarFn fname ((pre ++ .column (some t) cn :: post)
            ++ [.litStr (geomTypeStr colMeta.geometryTypes), .litStr colMeta.encoding]))
          (nameForAliasF (fuel + 1) (.scalarFn fname (pre ++ .column (some t) cn :: post)))))
    ∧ (rewriteExprF gm (fuel + 1) (.aggFn fname (pre ++ .column (some t) cn :: post))
      = some (.aliasE
          (.aggFn fname ((pre ++ .column (some t) cn :: post)
            ++ [.litStr (geomTypeStr colMeta.geometryTypes), .litStr colMeta.encoding]))
          (nameForAliasF (fuel + 1) (.aggFn fname (pre ++ .column (some t) cn :: post)))))
    ∧ geomTypeStr [] = "Unknown"
    ∧ (∀ v, geomTypeStr [v] = v)
    ∧ (∀ v w l, geomTypeStr (v :: w :: l) = "Mixed") := by
  have hinf := inferGo_first_resolving_column gm pre t cn tm colMeta post
    [.litNull, .litNull] hpre ht hcn
  refine ⟨?_, ?_, rfl, fun v => rfl, fun v w l => rfl⟩
  · simp only [rewriteExprF, hargs, hst, if_true, inferEncodingAndType, hinf]
  · simp only [rewriteExprF, hargs, hst, if_true, inferEncodingAndType, hinf]

/-- C6 witness: `ST_AsText(t.geom)` over the example table metadata — the
rewritten call carries `t.geom`, then literals `"Polygon"` and `"WKB"`,
under the original output name. -/
theorem analyzer_appends_type_then_encoding_with_alias_witness :
    rewriteExprF [("t", egMeta)] 2 (.scalarFn "ST_AsText" [.column (some "t") "geom"])
      = some (.aliasE
          (.scalarFn "ST_AsText"
            [.column (some "t") "geom", .litStr "Polygon", .litStr "WKB"])
          (nameForAliasF 2 (.scalarFn "ST_AsText" [.column (some "t") "geom"]))) :=
  (analyzer_appends_type_then_encoding_with_alias [("t", egMeta)] "ST_AsText" 1
    [] [] "t" "geom" egMeta { encoding := "WKB", geometryTypes := ["Polygon"] }
    (by decide) rfl rfl (by simp) rfl).1

/-- C5 counterexample. Applying the spatial analyzer rule twice does not
yield the same plan as applying it once: on the example plan the second
pass rewrites the already-rewritten `ST_AsText` call again. -/
theorem analyzer_second_pass_alters_plan :
    ((analyzeRule 10 egPlan).bind (analyzeRule 10)) ≠ analyzeRule 10 egPlan := by
  intro h
  have h2 := congrArg (Option.map (stAritiesP 10)) h
  have hL : Option.map (stAritiesP 10) ((analyzeRule 10 egPlan).bind (analyzeRule 10))
      = some [5] := rfl
  have hR : Option.map (stAritiesP 10) (analyzeRule 10 egPlan) = some [3] := rfl
  rw [hL, hR] at h2
  exact absurd h2 (by decide)

/-- C5 as amended: the analyzer is not a fixed point after one pass — the
rewrite matches every `ST_`-named call unconditionally, so the second
application appends the two literal arguments again: the example plan's
only `ST_` call carries 3 arguments after one pass and 5 after two. -/
theorem analyzer_second_pass_appends_two_more_literals :
    Option.map (stAritiesP 10) (analyzeRule 10 egPlan) = some [3]
    ∧ Option.map (stAritiesP 10) ((analyzeRule 10 egPlan).bind (analyzeRule 10))
      = some [5] :=
  ⟨rfl, rfl⟩
